import Mathlib

set_option linter.unusedVariables false

/-!
# Verification of the Telemetria core against its specification

This file shallowly embeds the core components of the Telemetria repository:

* the wire codec `encode_payload` / `decode_payload` of `src/core/protocol.py`,
* the framing decision of the sender loop in `src/sender_pc.py`,
* the alert cooldown engine `AlertManager.send_alert` of `src/core/alerts.py`,
* the sensor reduction `HardwareMonitor.fetch_data` of `src/hardware_monitor.py`,
* the statistics query `TelemetryHistory.get_stats` of `src/core/history.py`,

and proves (or refutes) the testable properties stated for them.

Modelling conventions:

* Byte buffers are `List Nat` (each entry one byte).
* Python floats are modelled as rationals `ℚ`; a sensor value that is
  `None`/NaN/infinite is modelled as `Option.none` (all three are coerced to
  `0` by `_safe_value` before any policy runs, so the collapse is faithful).
* The JSON document layer (`json.dumps(..., separators=(',',':'))` /
  `json.loads`) is modelled for the document class the program exchanges:
  numbers are integers, strings hold their byte content with `"` and `\`
  escaped, and well-formed strings consist of printable ASCII bytes
  (`0x20 ≤ b ≤ 0x7f`); float formatting and `\uXXXX` escapes are orthogonal
  to every property proved here.
* The gzip library (`gzip.compress`/`gzip.decompress`) is external to the
  repository.  It is modelled as a deflate-family compressor: a run-length
  body framed by the gzip magic header `0x1f 0x8b` and an end-of-stream
  marker.  The model preserves the interface facts the code relies on:
  decompression inverts compression, compressed output starts with
  `0x1f 0x8b`, a buffer without that header fails with `BadGzipFile`, and a
  stream that ends before the end-of-stream marker fails with `EOFError`
  (which, as in CPython, is *not* a subclass of `OSError`).
-/

/-! ## JSON documents

`Json` is the document type produced by `json.loads`: null, booleans,
numbers, strings, arrays and objects.  Arrays and objects are separate
mutual inductives so that all recursions stay structural (and hence
kernel-computable). -/

mutual

inductive Json where
  | null
  | bool (b : Bool)
  | num (n : Int)
  | str (s : List Nat)
  | arr (elems : JsonList)
  | obj (fields : JsonMembers)
  deriving DecidableEq, Repr

inductive JsonList where
  | nil
  | cons (head : Json) (tail : JsonList)
  deriving DecidableEq, Repr

inductive JsonMembers where
  | nil
  | cons (key : List Nat) (value : Json) (tail : JsonMembers)
  deriving DecidableEq, Repr

end

/-- Is this document a JSON object (a Python `dict`)? -/
def Json.isObj : Json → Bool
  | .obj _ => true
  | _ => false

/-! ### Decimal digits of numbers -/

/-- Little-endian decimal digits of `n`, with an explicit recursion budget
(the budget `n + 1` always suffices). -/
def natDigitsRevF : Nat → Nat → List Nat
  | 0, _ => []
  | f + 1, n => if n < 10 then [n] else n % 10 :: natDigitsRevF f (n / 10)

/-- ASCII decimal digits of a natural number, most significant first. -/
def natBytes (n : Nat) : List Nat :=
  (natDigitsRevF (n + 1) n).reverse.map (· + 48)

/-- ASCII decimal encoding of an integer (`json.dumps` number output). -/
def intBytes : Int → List Nat
  | .ofNat m => natBytes m
  | .negSucc m => 45 :: natBytes (m + 1)

/-! ### Serialization: `json.dumps(data, separators=(',', ':'))` -/

/-- String-content escaping performed by `json.dumps`: `"` becomes `\"` and
`\` becomes `\\` (control characters and non-ASCII are outside the
well-formed string class, see `wfStr`). -/
def escStr (s : List Nat) : List Nat :=
  s.flatMap fun b => if b = 34 then [92, 34] else if b = 92 then [92, 92] else [b]

mutual

/-- Compact serialization of a document: `json.dumps(data, separators=(',', ':'))`
encoded to UTF-8 bytes. -/
def dumps : Json → List Nat
  | .null => [110, 117, 108, 108]
  | .bool true => [116, 114, 117, 101]
  | .bool false => [102, 97, 108, 115, 101]
  | .num n => intBytes n
  | .str s => 34 :: escStr s ++ [34]
  | .arr l => 91 :: dumpsList l ++ [93]
  | .obj m => 123 :: dumpsMembers m ++ [125]

/-- Comma-joined serialization of array elements. -/
def dumpsList : JsonList → List Nat
  | .nil => []
  | .cons x xs => dumps x ++ dumpsListRest xs

/-- Serialization of the remaining array elements, each preceded by `,`. -/
def dumpsListRest : JsonList → List Nat
  | .nil => []
  | .cons y ys => 44 :: dumps y ++ dumpsListRest ys

/-- Comma-joined serialization of object members (`"key":value`). -/
def dumpsMembers : JsonMembers → List Nat
  | .nil => []
  | .cons k v ms => 34 :: escStr k ++ [34, 58] ++ dumps v ++ dumpsMembersRest ms

/-- Serialization of the remaining object members, each preceded by `,`. -/
def dumpsMembersRest : JsonMembers → List Nat
  | .nil => []
  | .cons k v ms => 44 :: (34 :: escStr k ++ [34, 58] ++ dumps v) ++ dumpsMembersRest ms

end

/-! ### Well-formed documents

A string is well-formed when all its bytes are printable ASCII
(`0x20 ≤ b ≤ 0x7f`): exactly the characters `json.dumps` emits raw
(after the `"`/`\` escapes of `escStr`). -/

def wfStr (s : List Nat) : Bool :=
  s.all fun b => 32 ≤ b && b ≤ 127

mutual

/-- All strings in the document are well-formed. -/
def wfJ : Json → Bool
  | .null => true
  | .bool _ => true
  | .num _ => true
  | .str s => wfStr s
  | .arr l => wfL l
  | .obj m => wfM m

def wfL : JsonList → Bool
  | .nil => true
  | .cons x xs => wfJ x && wfL xs

def wfM : JsonMembers → Bool
  | .nil => true
  | .cons k v ms => wfStr k && wfJ v && wfM ms

end

/-! ### Structural size (used as the parser's recursion budget) -/

mutual

def jsize : Json → Nat
  | .null => 1
  | .bool _ => 1
  | .num _ => 1
  | .str _ => 1
  | .arr l => 1 + lsize l
  | .obj m => 1 + msize m

def lsize : JsonList → Nat
  | .nil => 0
  | .cons x xs => 1 + jsize x + lsize xs

def msize : JsonMembers → Nat
  | .nil => 0
  | .cons _ v ms => 1 + jsize v + msize ms

end

/-! ### Parsing: `json.loads` -/

def isDigitB (b : Nat) : Bool := 48 ≤ b && b ≤ 57

/-- Parse a run of ASCII digits into a natural number, returning the rest. -/
def parseNat (bs : List Nat) : Option (Nat × List Nat) :=
  match bs.takeWhile isDigitB with
  | [] => none
  | ds => some (ds.foldl (fun a d => 10 * a + (d - 48)) 0, bs.dropWhile isDigitB)

/-- Parse the body of a quoted string (the opening `"` already consumed),
undoing the `\"` and `\\` escapes; a raw control byte is rejected, as by
`json.loads` in strict mode. -/
def parseStr : List Nat → Option (List Nat × List Nat)
  | [] => none
  | b :: rest =>
    if b = 34 then some ([], rest)
    else if b = 92 then
      match rest with
      | [] => none
      | e :: rest2 =>
        if e = 34 || e = 92 then
          (parseStr rest2).map fun sr => (e :: sr.1, sr.2)
        else none
    else if b < 32 then none
    else (parseStr rest).map fun sr => (b :: sr.1, sr.2)

mutual

/-- Parse one JSON value; `fuel` bounds the bracket-nesting recursion. -/
def parseVal : Nat → List Nat → Option (Json × List Nat)
  | 0, _ => none
  | f + 1, bs =>
    match bs with
    | [] => none
    | b :: rest =>
      if b = 110 then
        match rest with
        | 117 :: 108 :: 108 :: r => some (.null, r)
        | _ => none
      else if b = 116 then
        match rest with
        | 114 :: 117 :: 101 :: r => some (.bool true, r)
        | _ => none
      else if b = 102 then
        match rest with
        | 97 :: 108 :: 115 :: 101 :: r => some (.bool false, r)
        | _ => none
      else if b = 34 then
        match parseStr rest with
        | some (s, r) => some (.str s, r)
        | none => none
      else if b = 91 then
        if rest.head? = some 93 then some (.arr .nil, rest.tail)
        else
          match parseElems f rest with
          | some (l, r) => some (.arr l, r)
          | none => none
      else if b = 123 then
        if rest.head? = some 125 then some (.obj .nil, rest.tail)
        else
          match parseMembs f rest with
          | some (m, r) => some (.obj m, r)
          | none => none
      else if b = 45 then
        match parseNat rest with
        | some (m, r) => some (.num (-(m : Int)), r)
        | none => none
      else if isDigitB b then
        match parseNat (b :: rest) with
        | some (m, r) => some (.num (m : Int), r)
        | none => none
      else none

/-- Parse a non-empty comma-separated element list up to the closing `]`. -/
def parseElems : Nat → List Nat → Option (JsonList × List Nat)
  | 0, _ => none
  | f + 1, bs =>
    match parseVal f bs with
    | some (v, 44 :: r) =>
      match parseElems f r with
      | some (l, r2) => some (.cons v l, r2)
      | none => none
    | some (v, 93 :: r) => some (.cons v .nil, r)
    | _ => none

/-- Parse a non-empty comma-separated member list up to the closing `}`. -/
def parseMembs : Nat → List Nat → Option (JsonMembers × List Nat)
  | 0, _ => none
  | f + 1, bs =>
    match bs with
    | 34 :: rest =>
      match parseStr rest with
      | some (k, 58 :: r) =>
        match parseVal f r with
        | some (v, 44 :: r2) =>
          match parseMembs f r2 with
          | some (m, r3) => some (.cons k v m, r3)
          | none => none
        | some (v, 125 :: r2) => some (.cons k v .nil, r2)
        | _ => none
      | _ => none
    | _ => none

end

/-- `json.loads` on a byte buffer: parse one value consuming the whole
input (the budget `bs.length + 1` dominates any document the buffer can
encode). -/
def loads (bs : List Nat) : Option Json :=
  match parseVal (bs.length + 1) bs with
  | some (j, []) => some j
  | _ => none

example : loads ([91, 49, 44, 48, 93]) = some (.arr (.cons (.num 1) (.cons (.num 0) .nil))) := by decide
example : loads (dumps (.obj (.cons [97] (.num 1) .nil))) = some (.obj (.cons [97] (.num 1) .nil)) := by decide
example : loads [48] = some (.num 0) := by decide
example : dumps (.num (-12)) = [45, 49, 50] := by decide
example : loads [45, 49, 50] = some (.num (-12)) := by decide

/-! ### Round-trip lemmas for digits -/

/-- Value of a little-endian digit list. -/
def valLE : List Nat → Nat
  | [] => 0
  | d :: ds => d + 10 * valLE ds

theorem natDigitsRevF_val : ∀ f n, n < f → valLE (natDigitsRevF f n) = n := by
  intro f
  induction f with
  | zero => intro n h; omega
  | succ f ih =>
    intro n h
    by_cases h10 : n < 10
    · simp [natDigitsRevF, h10, valLE]
    · have hdiv : n / 10 < f := by
        have h1 : n / 10 < n := Nat.div_lt_self (by omega) (by omega)
        omega
      simp only [natDigitsRevF, if_neg h10, valLE, ih _ hdiv]
      omega

theorem natDigitsRevF_lt10 : ∀ f n, ∀ d ∈ natDigitsRevF f n, d < 10 := by
  intro f
  induction f with
  | zero => intro n d hd; simp [natDigitsRevF] at hd
  | succ f ih =>
    intro n d hd
    by_cases h10 : n < 10
    · simp [natDigitsRevF, h10] at hd; omega
    · simp only [natDigitsRevF, if_neg h10, List.mem_cons] at hd
      rcases hd with h | h
      · omega
      · exact ih _ _ h

theorem natDigitsRevF_ne_nil : ∀ f n, 0 < f → natDigitsRevF f n ≠ [] := by
  intro f n hf
  cases f with
  | zero => omega
  | succ f =>
    by_cases h10 : n < 10 <;> simp [natDigitsRevF, h10]

theorem foldl_digits_reverse (ds : List Nat) :
    ∀ a : Nat, ds.reverse.foldl (fun a d => 10 * a + d) a = a * 10 ^ ds.length + valLE ds := by
  induction ds with
  | nil => intro a; simp [valLE]
  | cons d tl ih =>
    intro a
    simp only [List.reverse_cons, List.foldl_append, List.foldl_cons, List.foldl_nil, ih,
      valLE, List.length_cons]
    ring

theorem natBytes_all_digit : ∀ b ∈ natBytes n, isDigitB b = true := by
  intro b hb
  simp only [natBytes, List.mem_map, List.mem_reverse] at hb
  obtain ⟨d, hd, rfl⟩ := hb
  have := natDigitsRevF_lt10 (n + 1) n d hd
  simp [isDigitB]; omega

theorem natBytes_ne_nil (n : Nat) : natBytes n ≠ [] := by
  simp only [natBytes, ne_eq, List.map_eq_nil_iff, List.reverse_eq_nil_iff]
  exact natDigitsRevF_ne_nil _ _ (by omega)

theorem foldl_sub48 : ∀ (l : List Nat) (a : Nat),
    (l.map (· + 48)).foldl (fun a d => 10 * a + (d - 48)) a = l.foldl (fun a d => 10 * a + d) a := by
  intro l
  induction l with
  | nil => intro a; rfl
  | cons d tl ih =>
    intro a
    simp only [List.map_cons, List.foldl_cons, ih]
    have h48 : d + 48 - 48 = d := by omega
    rw [h48]

/-- Folding the parser's digit accumulator over the emitted bytes recovers `n`. -/
theorem natBytes_fold (n : Nat) :
    (natBytes n).foldl (fun a d => 10 * a + (d - 48)) 0 = n := by
  rw [natBytes, foldl_sub48, foldl_digits_reverse, natDigitsRevF_val (n + 1) n (by omega)]
  omega

theorem takeWhile_append_of_all {p : Nat → Bool} {xs ys : List Nat}
    (hxs : ∀ x ∈ xs, p x = true) (hys : ∀ y, ys.head? = some y → p y = false) :
    (xs ++ ys).takeWhile p = xs ∧ (xs ++ ys).dropWhile p = ys := by
  induction xs with
  | nil =>
    cases ys with
    | nil => simp
    | cons y ys' =>
      have := hys y rfl
      simp [List.takeWhile, List.dropWhile, this]
  | cons x xs' ih =>
    have hx := hxs x (by simp)
    have ih' := ih (fun x hx => hxs x (by simp [hx]))
    simp [List.takeWhile, List.dropWhile, hx, ih'.1, ih'.2]

/-- `parseNat` undoes `natBytes` so long as the suffix does not start with a digit. -/
theorem parseNat_natBytes (n : Nat) (rest : List Nat)
    (hrest : ∀ y, rest.head? = some y → isDigitB y = false) :
    parseNat (natBytes n ++ rest) = some (n, rest) := by
  obtain ⟨htake, hdrop⟩ := takeWhile_append_of_all (natBytes_all_digit) hrest
  have hne := natBytes_ne_nil n
  unfold parseNat
  rw [htake, hdrop]
  cases hnb : natBytes n with
  | nil => exact absurd hnb hne
  | cons b bs =>
    simp only []
    rw [← hnb, natBytes_fold]

/-! ### Round-trip lemmas for strings and serialized values -/

/-- `parseStr` undoes `escStr` on well-formed string content. -/
theorem parseStr_escStr : ∀ s : List Nat, wfStr s = true →
    ∀ rest, parseStr (escStr s ++ 34 :: rest) = some (s, rest) := by
  intro s
  induction s with
  | nil =>
    intro _ rest
    rw [show escStr [] = [] from rfl, List.nil_append, parseStr.eq_def]
    simp
  | cons b tl ih =>
    intro hwf rest
    simp only [wfStr, List.all_cons, Bool.and_eq_true, decide_eq_true_eq] at hwf
    obtain ⟨⟨hb32, hb127⟩, htl⟩ := hwf
    have htl' : wfStr tl = true := htl
    by_cases h34 : b = 34
    · subst h34
      have hesc : escStr (34 :: tl) = 92 :: 34 :: escStr tl := by simp [escStr]
      rw [hesc, List.cons_append, List.cons_append, parseStr.eq_def]
      simp [List.append_assoc, ih htl' rest]
    · by_cases h92 : b = 92
      · subst h92
        have hesc : escStr (92 :: tl) = 92 :: 92 :: escStr tl := by simp [escStr]
        rw [hesc, List.cons_append, List.cons_append, parseStr.eq_def]
        simp [List.append_assoc, ih htl' rest]
      · have hesc : escStr (b :: tl) = b :: escStr tl := by simp [escStr, h34, h92]
        rw [hesc, List.cons_append, parseStr.eq_def]
        have hlt : ¬ b < 32 := by omega
        simp [h34, h92, hlt, List.append_assoc, ih htl' rest]

/-- Every serialized document starts with a recognizable first byte. -/
theorem dumps_head : ∀ j : Json, ∃ b t, dumps j = b :: t ∧
    (b = 110 ∨ b = 116 ∨ b = 102 ∨ b = 34 ∨ b = 91 ∨ b = 123 ∨ b = 45 ∨ isDigitB b = true) := by
  intro j
  cases j with
  | null => exact ⟨110, _, rfl, by simp⟩
  | bool b =>
    cases b
    · exact ⟨102, _, rfl, by simp⟩
    · exact ⟨116, _, rfl, by simp⟩
  | num n =>
    cases n with
    | ofNat m =>
      cases hnb : natBytes m with
      | nil => exact absurd hnb (natBytes_ne_nil m)
      | cons b t =>
        refine ⟨b, t, ?_, ?_⟩
        · simpa [dumps, intBytes] using hnb
        · have := natBytes_all_digit (n := m) b (by rw [hnb]; simp)
          tauto
    | negSucc m => exact ⟨45, _, rfl, by simp⟩
  | str s => exact ⟨34, _, rfl, by simp⟩
  | arr l => exact ⟨91, _, rfl, by simp⟩
  | obj m => exact ⟨123, _, rfl, by simp⟩

theorem jsize_pos : ∀ j : Json, 1 ≤ jsize j := by
  intro j
  cases j <;> simp [jsize]

theorem lsize_pos : ∀ l : JsonList, l ≠ .nil → 1 ≤ lsize l := by
  intro l h
  cases l with
  | nil => exact absurd rfl h
  | cons x xs => simp [lsize]; omega

theorem msize_pos : ∀ m : JsonMembers, m ≠ .nil → 1 ≤ msize m := by
  intro m h
  cases m with
  | nil => exact absurd rfl h
  | cons k v ms => simp [msize]; omega

mutual

theorem jsize_le_len : ∀ j : Json, jsize j ≤ (dumps j).length
  | .null => by simp [jsize, dumps]
  | .bool true => by simp [jsize, dumps]
  | .bool false => by simp [jsize, dumps]
  | .num n => by
    have h : dumps (.num n) ≠ [] := by
      cases n with
      | ofNat m => simpa [dumps, intBytes] using natBytes_ne_nil m
      | negSucc m => simp [dumps, intBytes]
    have : 1 ≤ (dumps (.num n)).length := by
      cases hd : dumps (.num n) with
      | nil => exact absurd hd h
      | cons a t => simp
    simpa [jsize] using this
  | .str s => by simp [jsize, dumps]
  | .arr l => by
    have := lsize_le_len l
    simp only [jsize, dumps, List.length_cons, List.length_append, List.length_cons,
      List.length_nil]
    omega
  | .obj m => by
    have := msize_le_len m
    simp only [jsize, dumps, List.length_cons, List.length_append, List.length_cons,
      List.length_nil]
    omega

theorem lsize_le_len : ∀ l : JsonList, lsize l ≤ (dumpsList l).length + 1
  | .nil => by simp [lsize, dumpsList]
  | .cons x xs => by
    have h1 := jsize_le_len x
    have h2 := lsizeRest_le_len xs
    simp only [lsize, dumpsList, List.length_append]
    omega

theorem lsizeRest_le_len : ∀ l : JsonList, lsize l ≤ (dumpsListRest l).length
  | .nil => by simp [lsize, dumpsListRest]
  | .cons y ys => by
    have h1 := jsize_le_len y
    have h2 := lsizeRest_le_len ys
    simp only [lsize, dumpsListRest, List.length_cons, List.length_append]
    omega

theorem msize_le_len : ∀ m : JsonMembers, msize m ≤ (dumpsMembers m).length + 1
  | .nil => by simp [msize, dumpsMembers]
  | .cons k v ms => by
    have h1 := jsize_le_len v
    have h2 := msizeRest_le_len ms
    simp only [msize, dumpsMembers, List.length_cons, List.length_append]
    omega

theorem msizeRest_le_len : ∀ m : JsonMembers, msize m ≤ (dumpsMembersRest m).length
  | .nil => by simp [msize, dumpsMembersRest]
  | .cons k v ms => by
    have h1 := jsize_le_len v
    have h2 := msizeRest_le_len ms
    simp only [msize, dumpsMembersRest, List.length_cons, List.length_append]
    omega

end

theorem parseElems_succ (f : Nat) (bs : List Nat) :
    parseElems (f + 1) bs = match parseVal f bs with
      | some (v, 44 :: r) =>
        match parseElems f r with
        | some (l, r2) => some (.cons v l, r2)
        | none => none
      | some (v, 93 :: r) => some (.cons v .nil, r)
      | _ => none := rfl

theorem parseMembs_succ (f : Nat) (bs : List Nat) :
    parseMembs (f + 1) bs = match bs with
      | 34 :: rest =>
        match parseStr rest with
        | some (k, 58 :: r) =>
          match parseVal f r with
          | some (v, 44 :: r2) =>
            match parseMembs f r2 with
            | some (m, r3) => some (.cons k v m, r3)
            | none => none
          | some (v, 125 :: r2) => some (.cons k v .nil, r2)
          | _ => none
        | _ => none
      | _ => none := rfl

theorem headNotDigit_cons (c : Nat) (h : isDigitB c = false) (r : List Nat) :
    ∀ y, (c :: r).head? = some y → isDigitB y = false := by
  intro y hy
  simp only [List.head?, Option.some.injEq] at hy
  exact hy ▸ h

/-- With enough fuel, the parser inverts the serializer, leaving any
non-digit-leading suffix intact. -/
theorem parse_dumps : ∀ f : Nat,
    (∀ j rest, wfJ j = true → jsize j ≤ f →
      (∀ y, rest.head? = some y → isDigitB y = false) →
      parseVal f (dumps j ++ rest) = some (j, rest)) ∧
    (∀ l rest, l ≠ .nil → wfL l = true → lsize l ≤ f →
      parseElems f (dumpsList l ++ 93 :: rest) = some (l, rest)) ∧
    (∀ m rest, m ≠ .nil → wfM m = true → msize m ≤ f →
      parseMembs f (dumpsMembers m ++ 125 :: rest) = some (m, rest)) := by
  intro f
  induction f with
  | zero =>
    refine ⟨?_, ?_, ?_⟩
    · intro j _ _ hsz _
      have := jsize_pos j
      omega
    · intro l _ hne _ hsz
      have := lsize_pos l hne
      omega
    · intro m _ hne _ hsz
      have := msize_pos m hne
      omega
  | succ f ih =>
    obtain ⟨ihV, ihE, ihM⟩ := ih
    refine ⟨?_, ?_, ?_⟩
    · -- parseVal inverts dumps
      intro j rest hwf hsz hrest
      cases j with
      | null =>
        rw [show dumps .null = [110, 117, 108, 108] from rfl, parseVal.eq_def]
        simp
      | bool b =>
        cases b
        · rw [show dumps (.bool false) = [102, 97, 108, 115, 101] from rfl, parseVal.eq_def]
          simp
        · rw [show dumps (.bool true) = [116, 114, 117, 101] from rfl, parseVal.eq_def]
          simp
      | num n =>
        cases n with
        | ofNat m =>
          obtain ⟨b, t, hnb⟩ : ∃ b t, natBytes m = b :: t := by
            cases hh : natBytes m with
            | nil => exact absurd hh (natBytes_ne_nil m)
            | cons b t => exact ⟨b, t, rfl⟩
          have hdig : isDigitB b = true := natBytes_all_digit b (by rw [hnb]; simp)
          have hb4857 : 48 ≤ b ∧ b ≤ 57 := by
            simpa [isDigitB, Bool.and_eq_true, decide_eq_true_eq] using hdig
          have h110 : ¬ b = 110 := by omega
          have h116 : ¬ b = 116 := by omega
          have h102 : ¬ b = 102 := by omega
          have h34 : ¬ b = 34 := by omega
          have h91 : ¬ b = 91 := by omega
          have h123 : ¬ b = 123 := by omega
          have h45 : ¬ b = 45 := by omega
          rw [show dumps (.num (Int.ofNat m)) = natBytes m from rfl, hnb, List.cons_append,
            parseVal.eq_def]
          simp only [h110, h116, h102, h34, h91, h123, h45, hdig, if_false, if_true,
            ite_false, ite_true]
          rw [← List.cons_append, ← hnb, parseNat_natBytes m rest hrest]
          rfl
        | negSucc m =>
          rw [show dumps (.num (Int.negSucc m)) = 45 :: natBytes (m + 1) from rfl,
            List.cons_append, parseVal.eq_def]
          simp only [show ¬ (45 : Nat) = 110 from by omega, show ¬ (45 : Nat) = 116 from by omega,
            show ¬ (45 : Nat) = 102 from by omega, show ¬ (45 : Nat) = 34 from by omega,
            show ¬ (45 : Nat) = 91 from by omega, show ¬ (45 : Nat) = 123 from by omega,
            if_false, if_true, ite_false, ite_true, if_pos rfl]
          rw [parseNat_natBytes (m + 1) rest hrest,
            show Int.negSucc m = -((m : Int) + 1) from Int.negSucc_eq m]
          simp
      | str s =>
        have hwfs : wfStr s = true := hwf
        rw [show dumps (.str s) = 34 :: (escStr s ++ [34]) from rfl, List.cons_append,
          List.append_assoc, List.cons_append, List.nil_append, parseVal.eq_def]
        simp only [show ¬ (34 : Nat) = 110 from by omega, show ¬ (34 : Nat) = 116 from by omega,
          show ¬ (34 : Nat) = 102 from by omega, if_false, ite_false, if_pos rfl]
        rw [parseStr_escStr s hwfs rest]
        simp
      | arr l =>
        have hwl : wfL l = true := hwf
        have hszl : lsize l ≤ f := by
          have : jsize (.arr l) = 1 + lsize l := rfl
          omega
        cases l with
        | nil =>
          rw [show dumps (.arr .nil) = [91, 93] from rfl, parseVal.eq_def]
          simp
        | cons x xs =>
          obtain ⟨b, t, hd, hcls⟩ := dumps_head x
          have hb93 : b ≠ 93 := by
            rcases hcls with h | h | h | h | h | h | h | h
            · omega
            · omega
            · omega
            · omega
            · omega
            · omega
            · omega
            · have : 48 ≤ b ∧ b ≤ 57 := by
                simpa [isDigitB, Bool.and_eq_true, decide_eq_true_eq] using h
              omega
          rw [show dumps (.arr (.cons x xs)) = 91 :: (dumpsList (.cons x xs) ++ [93]) from rfl,
            List.cons_append, List.append_assoc, List.cons_append, List.nil_append,
            parseVal.eq_def]
          have hhead : (dumpsList (.cons x xs) ++ 93 :: rest).head? ≠ some 93 := by
            rw [show dumpsList (.cons x xs) = dumps x ++ dumpsListRest xs from rfl, hd]
            simp [hb93]
          simp only [show ¬ (91 : Nat) = 110 from by omega, show ¬ (91 : Nat) = 116 from by omega,
            show ¬ (91 : Nat) = 102 from by omega, show ¬ (91 : Nat) = 34 from by omega,
            if_false, ite_false, if_pos rfl, hhead, if_neg hhead]
          rw [ihE (.cons x xs) rest (by simp) hwl hszl]
          simp
      | obj m =>
        have hwm : wfM m = true := hwf
        have hszm : msize m ≤ f := by
          have : jsize (.obj m) = 1 + msize m := rfl
          omega
        cases m with
        | nil =>
          rw [show dumps (.obj .nil) = [123, 125] from rfl, parseVal.eq_def]
          simp
        | cons k v ms =>
          rw [show dumps (.obj (.cons k v ms)) = 123 :: (dumpsMembers (.cons k v ms) ++ [125]) from rfl,
            List.cons_append, List.append_assoc, List.cons_append, List.nil_append,
            parseVal.eq_def]
          have hhead : (dumpsMembers (.cons k v ms) ++ 125 :: rest).head? ≠ some 125 := by
            rw [show dumpsMembers (.cons k v ms) =
              34 :: escStr k ++ [34, 58] ++ dumps v ++ dumpsMembersRest ms from rfl]
            simp
          simp only [show ¬ (123 : Nat) = 110 from by omega, show ¬ (123 : Nat) = 116 from by omega,
            show ¬ (123 : Nat) = 102 from by omega, show ¬ (123 : Nat) = 34 from by omega,
            show ¬ (123 : Nat) = 91 from by omega, if_false, ite_false, if_pos rfl,
            if_neg hhead]
          rw [ihM (.cons k v ms) rest (by simp) hwm hszm]
          simp
    · -- parseElems inverts dumpsList on non-empty lists
      intro l rest hne hwl hsz
      cases l with
      | nil => exact absurd rfl hne
      | cons x xs =>
        have hwx : wfJ x = true ∧ wfL xs = true := by
          simpa [wfL, Bool.and_eq_true] using hwl
        have hszx : jsize x ≤ f := by
          have : lsize (.cons x xs) = 1 + jsize x + lsize xs := rfl
          omega
        cases xs with
        | nil =>
          rw [show dumpsList (.cons x .nil) = dumps x ++ [] from rfl, List.append_nil,
            parseElems_succ,
            ihV x (93 :: rest) hwx.1 hszx (headNotDigit_cons 93 (by decide) rest)]
        | cons y ys =>
          have hrw : dumpsList (.cons x (.cons y ys)) ++ 93 :: rest =
              dumps x ++ 44 :: (dumpsList (.cons y ys) ++ 93 :: rest) := by
            rw [show dumpsList (.cons x (.cons y ys)) = dumps x ++ dumpsListRest (.cons y ys) from rfl,
              show dumpsListRest (.cons y ys) = 44 :: dumps y ++ dumpsListRest ys from rfl,
              show dumpsList (.cons y ys) = dumps y ++ dumpsListRest ys from rfl]
            simp [List.append_assoc]
          rw [hrw, parseElems_succ,
            ihV x (44 :: (dumpsList (.cons y ys) ++ 93 :: rest)) hwx.1 hszx
              (headNotDigit_cons 44 (by decide) _)]
          have hszys : lsize (.cons y ys) ≤ f := by
            have : lsize (.cons x (.cons y ys)) = 1 + jsize x + lsize (.cons y ys) := rfl
            omega
          simp only [ihE (.cons y ys) rest (by simp) hwx.2 hszys]
    · -- parseMembs inverts dumpsMembers on non-empty member lists
      intro m rest hne hwm hsz
      cases m with
      | nil => exact absurd rfl hne
      | cons k v ms =>
        have hw : (wfStr k = true ∧ wfJ v = true) ∧ wfM ms = true := by
          simpa [wfM, Bool.and_eq_true] using hwm
        have hszv : jsize v ≤ f := by
          have : msize (.cons k v ms) = 1 + jsize v + msize ms := rfl
          omega
        cases ms with
        | nil =>
          have hrw : dumpsMembers (.cons k v .nil) ++ 125 :: rest =
              34 :: (escStr k ++ 34 :: 58 :: (dumps v ++ 125 :: rest)) := by
            rw [show dumpsMembers (.cons k v .nil) =
              34 :: escStr k ++ [34, 58] ++ dumps v ++ dumpsMembersRest .nil from rfl,
              show dumpsMembersRest JsonMembers.nil = [] from rfl, List.append_nil]
            simp [List.append_assoc]
          rw [hrw, parseMembs_succ]
          simp only [parseStr_escStr k hw.1.1 (58 :: (dumps v ++ 125 :: rest)),
            ihV v (125 :: rest) hw.1.2 hszv (headNotDigit_cons 125 (by decide) rest)]
        | cons k2 v2 ms2 =>
          have hrw : dumpsMembers (.cons k v (.cons k2 v2 ms2)) ++ 125 :: rest =
              34 :: (escStr k ++ 34 :: 58 :: (dumps v ++
                44 :: (dumpsMembers (.cons k2 v2 ms2) ++ 125 :: rest))) := by
            rw [show dumpsMembers (.cons k v (.cons k2 v2 ms2)) =
              34 :: escStr k ++ [34, 58] ++ dumps v ++ dumpsMembersRest (.cons k2 v2 ms2) from rfl,
              show dumpsMembersRest (.cons k2 v2 ms2) =
                44 :: (34 :: escStr k2 ++ [34, 58] ++ dumps v2) ++ dumpsMembersRest ms2 from rfl,
              show dumpsMembers (.cons k2 v2 ms2) =
                34 :: escStr k2 ++ [34, 58] ++ dumps v2 ++ dumpsMembersRest ms2 from rfl]
            simp [List.append_assoc]
          have hszms : msize (.cons k2 v2 ms2) ≤ f := by
            have : msize (.cons k v (.cons k2 v2 ms2)) =
              1 + jsize v + msize (.cons k2 v2 ms2) := rfl
            omega
          rw [hrw, parseMembs_succ]
          simp only [parseStr_escStr k hw.1.1 (58 :: (dumps v ++
              44 :: (dumpsMembers (.cons k2 v2 ms2) ++ 125 :: rest))),
            ihV v (44 :: (dumpsMembers (.cons k2 v2 ms2) ++ 125 :: rest)) hw.1.2 hszv
              (headNotDigit_cons 44 (by decide) _),
            ihM (.cons k2 v2 ms2) rest (by simp) hw.2 hszms]

/-- The decode side of `json.loads` inverts `json.dumps` on well-formed
documents. -/
theorem loads_dumps (j : Json) (h : wfJ j = true) : loads (dumps j) = some j := by
  have hfuel : jsize j ≤ (dumps j).length + 1 := le_trans (jsize_le_len j) (by omega)
  have hmain := (parse_dumps ((dumps j).length + 1)).1 j [] h hfuel (by intro y hy; simp at hy)
  rw [List.append_nil] at hmain
  rw [loads, hmain]

/-- Unfolding lemma for `parseVal` at positive fuel. -/
theorem parseVal_succ (f : Nat) (bs : List Nat) :
    parseVal (f + 1) bs = match bs with
      | [] => none
      | b :: rest =>
        if b = 110 then
          match rest with
          | 117 :: 108 :: 108 :: r => some (.null, r)
          | _ => none
        else if b = 116 then
          match rest with
          | 114 :: 117 :: 101 :: r => some (.bool true, r)
          | _ => none
        else if b = 102 then
          match rest with
          | 97 :: 108 :: 115 :: 101 :: r => some (.bool false, r)
          | _ => none
        else if b = 34 then
          match parseStr rest with
          | some (s, r) => some (.str s, r)
          | none => none
        else if b = 91 then
          if rest.head? = some 93 then some (.arr .nil, rest.tail)
          else
            match parseElems f rest with
            | some (l, r) => some (.arr l, r)
            | none => none
        else if b = 123 then
          if rest.head? = some 125 then some (.obj .nil, rest.tail)
          else
            match parseMembs f rest with
            | some (m, r) => some (.obj m, r)
            | none => none
        else if b = 45 then
          match parseNat rest with
          | some (m, r) => some (.num (-(m : Int)), r)
          | none => none
        else if isDigitB b then
          match parseNat (b :: rest) with
          | some (m, r) => some (.num (m : Int), r)
          | none => none
        else none := rfl

/-- A buffer accepted by `json.loads` starts with a byte that opens a JSON
value; in particular it is neither a framing tag (`0x00`/`0x01`) nor the
gzip magic byte `0x1f`. -/
theorem loads_head_starter (bs : List Nat) (j : Json) (h : loads bs = some j) :
    ∃ b t, bs = b :: t ∧
      (b = 110 ∨ b = 116 ∨ b = 102 ∨ b = 34 ∨ b = 91 ∨ b = 123 ∨ b = 45 ∨ isDigitB b = true) := by
  cases bs with
  | nil =>
    rw [show loads ([] : List Nat) = none from rfl] at h
    exact absurd h (by simp)
  | cons b t =>
    refine ⟨b, t, rfl, ?_⟩
    by_contra hcon
    push_neg at hcon
    obtain ⟨h110, h116, h102, h34, h91, h123, h45, hdig⟩ := hcon
    have hdig' : isDigitB b = false := by
      cases hd : isDigitB b
      · rfl
      · exact absurd hd hdig
    rw [loads] at h
    rw [show (b :: t).length + 1 = t.length + 1 + 1 from by simp, parseVal_succ] at h
    simp only [h110, h116, h102, h34, h91, h123, h45, hdig', if_false, ite_false,
      Bool.false_eq_true] at h
    exact absurd h (by simp)

/-! ## The gzip library model

`gzip.compress` / `gzip.decompress` (used by `src/core/protocol.py` and
`src/sender_pc.py`) are modelled as a deflate-family compressor over bytes:
a run-length-encoded body framed by the gzip magic header `0x1f 0x8b` and a
zero end-of-stream marker.  Failure is typed the way the CPython `gzip`
module raises it: a buffer not starting with the magic header raises
`BadGzipFile` (a subclass of `OSError`), while a stream that starts
correctly but is truncated or corrupt raises `EOFError`/`zlib.error`
(neither a subclass of `OSError`). -/

inductive GzipError where
  | badGzipFile
  | eofError
  deriving DecidableEq, Repr

/-- Run-length encode: maximal runs of equal bytes, run length capped at 255. -/
def rleEncode : List Nat → List (Nat × Nat)
  | [] => []
  | a :: rest =>
    match rleEncode rest with
    | [] => [(1, a)]
    | (n, b) :: tail =>
      if a = b ∧ n < 255 then (n + 1, b) :: tail else (1, a) :: (n, b) :: tail

/-- Expand run-length pairs back to bytes. -/
def rleDecode (ps : List (Nat × Nat)) : List Nat :=
  ps.flatMap fun p => List.replicate p.1 p.2

/-- Serialize run-length pairs, terminated by the 0 end-of-stream marker. -/
def pairBytes : List (Nat × Nat) → List Nat
  | [] => [0]
  | (n, b) :: ps => n :: b :: pairBytes ps

/-- Parse run-length pairs up to the end-of-stream marker; `none` when the
stream is truncated or corrupt. -/
def pairsOfBytes : List Nat → Option (List (Nat × Nat))
  | [] => none
  | 0 :: rest => if rest = [] then some [] else none
  | [_] => none
  | n :: b :: rest => (pairsOfBytes rest).map ((n, b) :: ·)

/-- `gzip.compress(data, compresslevel)` — the level only tunes the external
compressor's effort and does not affect the model. -/
def gzipCompress (bs : List Nat) : List Nat :=
  31 :: 139 :: pairBytes (rleEncode bs)

/-- `gzip.decompress(data)`: check the magic header, then inflate the body. -/
def gzipDecompress : List Nat → Except GzipError (List Nat)
  | 31 :: 139 :: body =>
    match pairsOfBytes body with
    | some ps => .ok (rleDecode ps)
    | none => .error .eofError
  | _ => .error .badGzipFile

theorem rleEncode_cons (a : Nat) (rest : List Nat) :
    rleEncode (a :: rest) = match rleEncode rest with
      | [] => [(1, a)]
      | (n, b) :: tail =>
        if a = b ∧ n < 255 then (n + 1, b) :: tail else (1, a) :: (n, b) :: tail := rfl

theorem rleDecode_rleEncode : ∀ bs : List Nat, rleDecode (rleEncode bs) = bs := by
  intro bs
  induction bs with
  | nil => rfl
  | cons a rest ih =>
    rw [rleEncode_cons]
    cases henc : rleEncode rest with
    | nil =>
      rw [henc] at ih
      have hrest : rest = [] := by simpa [rleDecode] using ih.symm
      subst hrest
      simp [rleDecode]
    | cons p tail =>
      obtain ⟨n, b⟩ := p
      rw [henc] at ih
      show rleDecode
        (if a = b ∧ n < 255 then (n + 1, b) :: tail else (1, a) :: (n, b) :: tail) = a :: rest
      by_cases hc : a = b ∧ n < 255
      · rw [if_pos hc]
        simp only [rleDecode, List.flatMap_cons] at ih ⊢
        rw [List.replicate_succ, List.cons_append, ih, hc.1]
      · rw [if_neg hc]
        simp only [rleDecode, List.flatMap_cons] at ih ⊢
        simp [List.replicate, ih]

theorem rleEncode_counts : ∀ bs : List Nat, ∀ p ∈ rleEncode bs, 1 ≤ p.1 := by
  intro bs
  induction bs with
  | nil => intro p hp; simp [rleEncode] at hp
  | cons a rest ih =>
    intro p hp
    rw [rleEncode_cons] at hp
    cases henc : rleEncode rest with
    | nil =>
      rw [henc] at hp
      simp at hp
      simp [hp]
    | cons q tail =>
      obtain ⟨n, b⟩ := q
      rw [henc] at hp
      have hp' : p ∈ (if a = b ∧ n < 255 then (n + 1, b) :: tail
          else (1, a) :: (n, b) :: tail) := hp
      clear hp
      rename' hp' => hp
      by_cases hc : a = b ∧ n < 255
      · rw [if_pos hc] at hp
        simp at hp
        rcases hp with hp | hp
        · simp [hp]
        · exact ih p (by rw [henc]; simp [hp])
      · rw [if_neg hc] at hp
        simp at hp
        rcases hp with hp | hp | hp
        · simp [hp]
        · exact ih p (by rw [henc]; simp [hp])
        · exact ih p (by rw [henc]; simp [hp])

theorem pairsOfBytes_pairBytes : ∀ ps : List (Nat × Nat), (∀ p ∈ ps, 1 ≤ p.1) →
    pairsOfBytes (pairBytes ps) = some ps := by
  intro ps
  induction ps with
  | nil => intro _; rfl
  | cons p tail ih =>
    intro hc
    obtain ⟨n, b⟩ := p
    have hn : 1 ≤ n := hc (n, b) (by simp)
    have htail := ih fun q hq => hc q (by simp [hq])
    rw [show pairBytes ((n, b) :: tail) = n :: b :: pairBytes tail from rfl,
      pairsOfBytes.eq_def]
    have hn0 : ¬ n = 0 := by omega
    cases hpb : pairBytes tail with
    | nil =>
      cases tail with
      | nil => simp [pairBytes] at hpb
      | cons q qs => obtain ⟨n2, b2⟩ := q; simp [pairBytes] at hpb
    | cons c cs =>
      simp only [hn0]
      rw [← hpb, htail]
      rfl

/-- Decompression inverts compression. -/
theorem gzipDecompress_gzipCompress (bs : List Nat) :
    gzipDecompress (gzipCompress bs) = .ok bs := by
  rw [gzipCompress, gzipDecompress,
    pairsOfBytes_pairBytes (rleEncode bs) (rleEncode_counts bs)]
  simp [rleDecode_rleEncode]

/-! ## The wire codec (`src/core/protocol.py`) -/

/-! Magic bytes identifying the payload type (`class MagicByte(IntEnum)`). -/

namespace MagicByte

/-- JSON without compression. -/
def RAW : Nat := 0x00

/-- JSON compressed with gzip. -/
def GZIP : Nat := 0x01

/-- MessagePack (reserved for future use). -/
def MSGPACK : Nat := 0x02

/-- Protocol Buffers (reserved for future use). -/
def PROTOBUF : Nat := 0x03

end MagicByte

/-- What a call to `decode_payload` does: return a document, return `None`
(the tagged failure), or let an exception escape to the caller. -/
inductive DecodeOutcome where
  | ok (doc : Json)
  | failure
  | raised (e : GzipError)
  deriving DecidableEq, Repr

/-- `json.loads(json_data.decode('utf-8'))` wrapped by the `except` clause of
`decode_payload`: a `json.JSONDecodeError` or `UnicodeDecodeError` is caught
and yields `None`. -/
def loadsResult (bs : List Nat) : DecodeOutcome :=
  match loads bs with
  | some j => .ok j
  | none => .failure

/-- `encode_payload(data, compress, compression_level)` from
`src/core/protocol.py`: serialize compactly, then frame with `GZIP` plus the
compressed bytes when `compress` is true, and with `RAW` plus the plain
bytes otherwise.  (`compression_level` only tunes the external compressor.) -/
def encode_payload (data : Json) (compress : Bool) (_compressionLevel : Nat) : List Nat :=
  let jsonData := dumps data
  if compress then MagicByte.GZIP :: gzipCompress jsonData
  else MagicByte.RAW :: jsonData

/-- `decode_payload(data)` from `src/core/protocol.py`.  Buffers shorter than
2 bytes fail immediately.  Tag `GZIP` decompresses the rest, tag `RAW` parses
the rest, any other tag triggers the legacy-recovery path: decompress the
*entire* buffer, and if that raises `BadGzipFile`/`OSError`, parse the entire
buffer as JSON.  The `except` clause catches `json.JSONDecodeError`,
`gzip.BadGzipFile`, `OSError` and `UnicodeDecodeError` — but *not* the
`EOFError`/`zlib.error` that `gzip.decompress` raises on a truncated or
corrupt stream, so that error escapes as `raised`. -/
def decode_payload (data : List Nat) : DecodeOutcome :=
  if data.length < 2 then .failure
  else
    match data with
    | [] => .failure
    | magic :: payload =>
      if magic = MagicByte.GZIP then
        match gzipDecompress payload with
        | .ok jsonData => loadsResult jsonData
        | .error .badGzipFile => .failure
        | .error .eofError => .raised .eofError
      else if magic = MagicByte.RAW then loadsResult payload
      else
        match gzipDecompress data with
        | .ok jsonData => loadsResult jsonData
        | .error .badGzipFile => loadsResult data
        | .error .eofError => .raised .eofError

/-- The framing decision of `_sender_loop` (`src/sender_pc.py`, lines
359-370), given the already-serialized payload bytes `data`: send
`0x01 + compressed` when compression strictly shrinks the body, otherwise
`0x00 + data`. -/
def sender_frame (data : List Nat) : List Nat :=
  let compressed := gzipCompress data
  if compressed.length < data.length then MagicByte.GZIP :: compressed
  else MagicByte.RAW :: data

example : decode_payload (encode_payload (.obj (.cons [97] (.num 1) .nil)) true 6) =
    .ok (.obj (.cons [97] (.num 1) .nil)) := by decide
example : decode_payload (encode_payload (.obj (.cons [97] (.num 1) .nil)) false 6) =
    .ok (.obj (.cons [97] (.num 1) .nil)) := by decide
example : decode_payload [1, 31, 139] = .raised .eofError := by decide
example : decode_payload [0, 49] = .ok (.num 1) := by decide
example : decode_payload (gzipCompress (dumps (.obj .nil))) = .ok (.obj .nil) := by decide
example : decode_payload [91, 93] = .ok (.arr .nil) := by decide

/-- `gzipDecompress` rejects any buffer whose first byte is not the gzip
magic byte `0x1f` with `BadGzipFile`. -/
theorem gzipDecompress_head_ne (b : Nat) (t : List Nat) (hb : b ≠ 31) :
    gzipDecompress (b :: t) = .error .badGzipFile := by
  rw [gzipDecompress.eq_def]
  split
  · rename_i heq
    injection heq with h1 _
    exact absurd h1 hb
  · rfl

/-- C1: round-trip law.  For every well-formed document `d` and for both
`compress = true` and `compress = false`,
`decode_payload (encode_payload d compress lvl)` decodes successfully to
`d` itself. -/
theorem encode_decode_roundtrip (d : Json) (compress : Bool) (lvl : Nat)
    (h : wfJ d = true) :
    decode_payload (encode_payload d compress lvl) = .ok d := by
  obtain ⟨b, t, hd, _⟩ := dumps_head d
  cases compress with
  | true =>
    rw [show encode_payload d true lvl = MagicByte.GZIP :: gzipCompress (dumps d) from rfl]
    rw [decode_payload]
    rw [if_neg (by simp [gzipCompress])]
    rw [if_pos (show MagicByte.GZIP = MagicByte.GZIP from rfl),
      gzipDecompress_gzipCompress (dumps d)]
    simp [loadsResult, loads_dumps d h]
  | false =>
    rw [show encode_payload d false lvl = MagicByte.RAW :: dumps d from rfl]
    rw [decode_payload]
    rw [if_neg (by simp [hd])]
    rw [if_neg (show ¬ MagicByte.RAW = MagicByte.GZIP from by decide),
      if_pos (show MagicByte.RAW = MagicByte.RAW from rfl)]
    simp [loadsResult, loads_dumps d h]

/-- Witness for C1 at the concrete document `{"a": 1}`, for both compressed
and uncompressed encodings. -/
theorem encode_decode_roundtrip_witness :
    wfJ (.obj (.cons [97] (.num 1) .nil)) = true ∧
    decode_payload (encode_payload (.obj (.cons [97] (.num 1) .nil)) true 6) =
      .ok (.obj (.cons [97] (.num 1) .nil)) ∧
    decode_payload (encode_payload (.obj (.cons [97] (.num 1) .nil)) false 6) =
      .ok (.obj (.cons [97] (.num 1) .nil)) :=
  ⟨by decide, encode_decode_roundtrip (.obj (.cons [97] (.num 1) .nil)) true 6 (by decide),
    encode_decode_roundtrip (.obj (.cons [97] (.num 1) .nil)) false 6 (by decide)⟩

/-- C2: `decode_payload` is *not* total on every byte buffer.  On the buffer
`0x01 0x1f 0x8b` — tag `GZIP` followed by a truncated gzip stream — the
`gzip.decompress` call raises `EOFError`, which the `except` clause (which
lists only `json.JSONDecodeError`, `gzip.BadGzipFile`, `OSError`,
`UnicodeDecodeError`) does not catch, so the exception escapes to the
caller instead of yielding the tagged failure. -/
theorem decode_payload_truncated_gzip_raises :
    decode_payload [MagicByte.GZIP, 31, 139] = .raised .eofError := by decide

/-- The true half of C2: every buffer shorter than 2 bytes yields the tagged
failure (`None`), never an exception. -/
theorem decode_payload_short_buffer (bs : List Nat) (h : bs.length < 2) :
    decode_payload bs = .failure := by
  rw [decode_payload.eq_def, if_pos h]

/-- Witness for the short-buffer law at the one-byte buffer `[0x05]`. -/
theorem decode_payload_short_buffer_witness :
    ([5] : List Nat).length < 2 ∧ decode_payload [5] = .failure :=
  ⟨by decide, decode_payload_short_buffer [5] (by decide)⟩

/-- C3 counterexample: for the near-empty document `{}` the compressed form
is strictly *larger* than the raw form, yet `encode_payload` with
`compress = true` still emits leading tag `0x01`, not the `0x00` the claim
requires — `encode_payload` performs no size comparison at all. -/
theorem encode_payload_not_adaptive :
    (dumps (.obj .nil)).length < (gzipCompress (dumps (.obj .nil))).length ∧
    (encode_payload (.obj .nil) true 6).head? = some MagicByte.GZIP ∧
    (encode_payload (.obj .nil) true 6).head? ≠ some MagicByte.RAW := by decide

/-- C3 amended: the adaptive smaller-of-the-two choice lives in the sender
loop (`_sender_loop`, `src/sender_pc.py`), not in `encode_payload`.  For
every serialized payload, `sender_frame` transmits one of the two candidate
framings, its total length is the minimum of the two, and whenever
compression does not strictly shrink the body the emitted tag is `0x00`. -/
theorem sender_frame_adaptive (data : List Nat) :
    ((sender_frame data).length ≤ (MagicByte.RAW :: data).length ∧
      (sender_frame data).length ≤ (MagicByte.GZIP :: gzipCompress data).length) ∧
    (sender_frame data = MagicByte.RAW :: data ∨
      sender_frame data = MagicByte.GZIP :: gzipCompress data) ∧
    (data.length ≤ (gzipCompress data).length →
      (sender_frame data).head? = some MagicByte.RAW) := by
  by_cases h : (gzipCompress data).length < data.length
  · rw [show sender_frame data = MagicByte.GZIP :: gzipCompress data from by
      rw [sender_frame]; exact if_pos h]
    refine ⟨⟨by simp; omega, le_refl _⟩, Or.inr rfl, fun hge => absurd h (by omega)⟩
  · rw [show sender_frame data = MagicByte.RAW :: data from by
      rw [sender_frame]; exact if_neg h]
    exact ⟨⟨le_refl _, by simp; omega⟩, Or.inl rfl, fun _ => rfl⟩

/-- Witness for the amended C3 at the serialized `{}` payload: compression
does not shrink it, and the sender emits tag `0x00`. -/
theorem sender_frame_adaptive_witness :
    (dumps (.obj .nil)).length ≤ (gzipCompress (dumps (.obj .nil))).length ∧
    (sender_frame (dumps (.obj .nil))).head? = some MagicByte.RAW :=
  ⟨by decide, (sender_frame_adaptive (dumps (.obj .nil))).2.2 (by decide)⟩

/-- C4: legacy recovery.  A buffer of length at least 2 that is either a
gzip compression of a parseable document, or itself a parseable document
(whose leading byte is then a JSON starter, hence not `0x00`/`0x01`),
decodes to that original document through the legacy branch. -/
theorem decode_payload_legacy_recovery (data : List Nat) (d : Json)
    (hlen : 2 ≤ data.length)
    (hcase : (∃ js, data = gzipCompress js ∧ loads js = some d) ∨ loads data = some d) :
    decode_payload data = .ok d := by
  rcases hcase with ⟨js, rfl, hjs⟩ | hraw
  · rw [show gzipCompress js = 31 :: 139 :: pairBytes (rleEncode js) from rfl]
    rw [decode_payload]
    rw [if_neg (by simp)]
    rw [if_neg (show ¬ (31 : Nat) = MagicByte.GZIP from by decide),
      if_neg (show ¬ (31 : Nat) = MagicByte.RAW from by decide),
      show (31 : Nat) :: 139 :: pairBytes (rleEncode js) = gzipCompress js from rfl,
      gzipDecompress_gzipCompress js]
    simp [loadsResult, hjs]
  · obtain ⟨b, t, hd, hcls⟩ := loads_head_starter data d hraw
    have hb : b ≠ 0 ∧ b ≠ 1 ∧ b ≠ 31 := by
      rcases hcls with h | h | h | h | h | h | h | h
      · omega
      · omega
      · omega
      · omega
      · omega
      · omega
      · omega
      · have : 48 ≤ b ∧ b ≤ 57 := by
          simpa [isDigitB, Bool.and_eq_true, decide_eq_true_eq] using h
        omega
    subst hd
    rw [decode_payload]
    rw [if_neg (by omega)]
    rw [if_neg (show ¬ b = MagicByte.GZIP from hb.2.1),
      if_neg (show ¬ b = MagicByte.RAW from hb.1),
      gzipDecompress_head_ne b t hb.2.2]
    simp [loadsResult, hraw]

/-- Witness for C4 at the raw legacy buffer `"[]"` (leading byte `0x5b`). -/
theorem decode_payload_legacy_recovery_witness :
    2 ≤ ([91, 93] : List Nat).length ∧ decode_payload [91, 93] = .ok (.arr .nil) :=
  ⟨by decide, decode_payload_legacy_recovery [91, 93] (.arr .nil) (by decide)
    (Or.inr (by decide))⟩

/-- C10: `decode_payload` does not validate that the decoded value is an
object: the buffer `0x00 '1'` decodes successfully to the number `1`,
which is not a dictionary document. -/
theorem decode_payload_accepts_non_object :
    decode_payload [MagicByte.RAW, 49] = .ok (.num 1) ∧ (Json.num 1).isObj = false := by
  decide

/-! ## The alert engine (`src/core/alerts.py`)

`time.time()` values are passed explicitly as rationals; the
`threading.Lock` around the check-and-set makes the read-modify-write
atomic, which the functional state-passing models directly.  Message
composition and the fire-and-forget channel dispatch thread have no effect
on the cooldown state and are not part of the state. -/

/-- `class AlertLevel(Enum)`. -/
inductive AlertLevel where
  | info
  | warning
  | critical
  deriving DecidableEq, Repr

/-- `@dataclass AlertConfig` (credential strings; a channel is enabled iff
its credentials are non-empty). -/
structure AlertConfig where
  enabled : Bool
  telegramBotToken : String
  telegramChatId : String
  discordWebhookUrl : String
  ntfyTopic : String
  ntfyServer : String
  genericWebhookUrl : String
  cooldownSeconds : Int
  minLevel : AlertLevel
  deriving DecidableEq, Repr

/-- `telegram_enabled`: `bool(token and chat_id)`. -/
def AlertConfig.telegramEnabled (c : AlertConfig) : Bool :=
  c.telegramBotToken != "" && c.telegramChatId != ""

/-- `discord_enabled`: `bool(webhook_url)`. -/
def AlertConfig.discordEnabled (c : AlertConfig) : Bool :=
  c.discordWebhookUrl != ""

/-- `ntfy_enabled`: `bool(topic)`. -/
def AlertConfig.ntfyEnabled (c : AlertConfig) : Bool :=
  c.ntfyTopic != ""

/-- `any_enabled`: the master switch and at least one credentialed channel. -/
def AlertConfig.anyEnabled (c : AlertConfig) : Bool :=
  c.enabled && (c.telegramEnabled || c.discordEnabled || c.ntfyEnabled)

/-- `AlertManager`: configuration plus the cooldown map `last_alerts`
(`Dict[str, float]`, modelled as an association list). -/
structure AlertManager where
  config : AlertConfig
  lastAlerts : List (String × ℚ)
  deriving DecidableEq, Repr

/-- `self.last_alerts.get(metric_key, 0)`. -/
def lookupLast (l : List (String × ℚ)) (k : String) : ℚ :=
  match l.find? fun p => p.1 == k with
  | some p => p.2
  | none => 0

/-- `self.last_alerts[metric_key] = now`. -/
def setLast (l : List (String × ℚ)) (k : String) (t : ℚ) : List (String × ℚ) :=
  (k, t) :: l.filter fun p => p.1 != k

/-- `_level_value(level)`: INFO 1, WARNING 2, CRITICAL 3. -/
def levelValue : AlertLevel → Nat
  | .info => 1
  | .warning => 2
  | .critical => 3

/-- `AlertManager.send_alert(metric_key, metric_name, value, unit, level,
extra_info)` at wall-clock time `now`, returning the boolean result and the
updated manager state. -/
def send_alert (m : AlertManager) (now : ℚ) (metricKey metricName : String)
    (value : ℚ) (unit : String) (level : AlertLevel) (extraInfo : String) :
    Bool × AlertManager :=
  if !m.config.anyEnabled then (false, m)
  else if levelValue level < levelValue m.config.minLevel then (false, m)
  else
    let lastTime := lookupLast m.lastAlerts metricKey
    if now - lastTime < (m.config.cooldownSeconds : ℚ) then (false, m)
    else
      -- the message is composed and dispatched on a daemon thread; only the
      -- cooldown map is state
      (true, { m with lastAlerts := setLast m.lastAlerts metricKey now })

theorem lookupLast_setLast (l : List (String × ℚ)) (k : String) (t : ℚ) :
    lookupLast (setLast l k t) k = t := by
  simp [lookupLast, setLast, List.find?]

/-- C6: early-return frame condition.  When no channel is enabled (whatever
the master switch says) or the level is below the configured minimum,
`send_alert` returns `false` and leaves the whole state — in particular the
cooldown map — untouched. -/
theorem send_alert_early_return (m : AlertManager) (now : ℚ)
    (k n u ei : String) (v : ℚ) (level : AlertLevel)
    (h : (m.config.telegramEnabled || m.config.discordEnabled ||
          m.config.ntfyEnabled) = false ∨
         levelValue level < levelValue m.config.minLevel) :
    send_alert m now k n v u level ei = (false, m) := by
  rcases h with h | h
  · have hany : m.config.anyEnabled = false := by
      simp [AlertConfig.anyEnabled, h]
    rw [send_alert, hany]
    simp
  · rw [send_alert]
    by_cases hany : m.config.anyEnabled
    · simp [hany, if_pos h]
    · simp [hany]

/-- Witness for C6: a manager with a Telegram token but all other
credentials empty and master switch on, probed with an INFO alert below the
WARNING minimum; and one with no credentials at all. -/
theorem send_alert_early_return_witness :
    send_alert ⟨⟨true, "tok", "chat", "", "", "https://ntfy.sh", "", 300, .warning⟩, []⟩
      1000 "cpu_temp" "CPU Temp" 95 "C" .info "" =
      (false, ⟨⟨true, "tok", "chat", "", "", "https://ntfy.sh", "", 300, .warning⟩, []⟩) ∧
    send_alert ⟨⟨true, "", "", "", "", "https://ntfy.sh", "", 300, .warning⟩, []⟩
      1000 "cpu_temp" "CPU Temp" 95 "C" .critical "" =
      (false, ⟨⟨true, "", "", "", "", "https://ntfy.sh", "", 300, .warning⟩, []⟩) :=
  ⟨send_alert_early_return _ _ _ _ _ _ _ _ (Or.inr (by decide)),
    send_alert_early_return _ _ _ _ _ _ _ _ (Or.inl (by decide))⟩

/-- C5: cooldown gating.  With a channel enabled and the level at or above
the minimum: a first call whose gap since the stored last-send time reaches
`cooldown_seconds` returns `true` and stamps `last_alerts[key]` with the
current time; a second call within the cooldown window returns `false` and
leaves the state unchanged; a third call at or past the window returns
`true` again. -/
theorem send_alert_cooldown (m : AlertManager) (k n u ei : String) (v : ℚ)
    (level : AlertLevel) (t0 t1 t2 : ℚ)
    (hEn : m.config.anyEnabled = true)
    (hLvl : levelValue m.config.minLevel ≤ levelValue level)
    (h0 : (m.config.cooldownSeconds : ℚ) ≤ t0 - lookupLast m.lastAlerts k)
    (h1 : t1 - t0 < (m.config.cooldownSeconds : ℚ))
    (h2 : (m.config.cooldownSeconds : ℚ) ≤ t2 - t0) :
    (send_alert m t0 k n v u level ei).1 = true ∧
    lookupLast (send_alert m t0 k n v u level ei).2.lastAlerts k = t0 ∧
    send_alert (send_alert m t0 k n v u level ei).2 t1 k n v u level ei =
      (false, (send_alert m t0 k n v u level ei).2) ∧
    (send_alert (send_alert m t0 k n v u level ei).2 t2 k n v u level ei).1 = true := by
  have hr0 : send_alert m t0 k n v u level ei =
      (true, { m with lastAlerts := setLast m.lastAlerts k t0 }) := by
    rw [send_alert, hEn]
    simp only [Bool.not_true, Bool.false_eq_true, if_false, ite_false]
    rw [if_neg (by omega), if_neg (by push_neg; linarith)]
  rw [hr0]
  refine ⟨rfl, lookupLast_setLast m.lastAlerts k t0, ?_, ?_⟩
  · rw [send_alert, hEn]
    simp only [Bool.not_true, Bool.false_eq_true, if_false, ite_false]
    rw [if_neg (by omega), if_pos (by rw [lookupLast_setLast]; linarith)]
  · rw [send_alert, hEn]
    simp only [Bool.not_true, Bool.false_eq_true, if_false, ite_false]
    rw [if_neg (by omega), if_neg (by rw [lookupLast_setLast]; push_neg; linarith)]

/-- Witness for C5: fresh manager with a Telegram channel, cooldown 300 s,
calls at t = 1000, 1100 (within cooldown) and 1300 (cooldown elapsed). -/
theorem send_alert_cooldown_witness :
    let m : AlertManager := ⟨⟨true, "tok", "chat", "", "", "https://ntfy.sh", "", 300, .warning⟩, []⟩
    (send_alert m 1000 "cpu_temp" "CPU Temp" 95 "C" .critical "").1 = true ∧
    lookupLast (send_alert m 1000 "cpu_temp" "CPU Temp" 95 "C" .critical "").2.lastAlerts
      "cpu_temp" = 1000 ∧
    send_alert (send_alert m 1000 "cpu_temp" "CPU Temp" 95 "C" .critical "").2 1100
      "cpu_temp" "CPU Temp" 95 "C" .critical "" =
      (false, (send_alert m 1000 "cpu_temp" "CPU Temp" 95 "C" .critical "").2) ∧
    (send_alert (send_alert m 1000 "cpu_temp" "CPU Temp" 95 "C" .critical "").2 1300
      "cpu_temp" "CPU Temp" 95 "C" .critical "").1 = true :=
  send_alert_cooldown _ "cpu_temp" "CPU Temp" "C" "" 95 .critical 1000 1100 1300
    (by decide) (by decide) (by norm_num [lookupLast]) (by norm_num) (by norm_num)

/-! ## The sensor reducer (`src/hardware_monitor.py`, `fetch_data`)

Hardware items carry their kind and name as the strings produced by
`str(...SensorType/HardwareType).split('.')[-1]`; `sensor.Value` is
`Option ℚ` (with `None`/NaN/infinity collapsed to `none`, all of which
`_safe_value` coerces to 0).  Motherboard sensors live on sub-hardware; the
sub-hardware sensor lists are concatenated in iteration order. -/

/-- One raw sensor reading of a hardware item. -/
structure Sensor where
  sensorType : String
  name : String
  value : Option ℚ
  deriving DecidableEq, Repr

/-- One entry of `computer.Hardware`. -/
structure HardwareItem where
  hwType : String
  name : String
  sensors : List Sensor
  subSensors : List Sensor
  deriving DecidableEq, Repr

/-- `_safe_value`: `None`/NaN/infinite coerce to 0. -/
def safeValue (v : Option ℚ) : ℚ := v.getD 0

/-- Python's substring test `needle in hay`. -/
def listStartsWith : List Char → List Char → Bool
  | [], _ => true
  | _ :: _, [] => false
  | a :: as, b :: bs => a = b && listStartsWith as bs

def listContainsSub (needle : List Char) : List Char → Bool
  | [] => needle.isEmpty
  | c :: rest => listStartsWith needle (c :: rest) || listContainsSub needle rest

def strIn (needle hay : String) : Bool := listContainsSub needle.toList hay.toList

/-- The `data["cpu"]` accumulator. -/
structure CpuData where
  temp : ℚ
  voltage : ℚ
  load : ℚ
  power : ℚ
  clock : ℚ
  deriving DecidableEq, Repr

/-- The `data["gpu"]` accumulator. -/
structure GpuData where
  temp : ℚ
  load : ℚ
  voltage : ℚ
  clockCore : ℚ
  clockMem : ℚ
  fan : ℚ
  memUsed : ℚ
  deriving DecidableEq, Repr

/-- The `data["ram"]` accumulator. -/
structure RamData where
  load : ℚ
  usedGb : ℚ
  availableGb : ℚ
  deriving DecidableEq, Repr

/-- One `disk_info` record of the `data["storage"]` list. -/
structure DiskInfo where
  name : String
  temp : ℚ
  health : ℚ
  usedSpace : ℚ
  readActivity : ℚ
  writeActivity : ℚ
  totalActivity : ℚ
  readRate : ℚ
  writeRate : ℚ
  dataReadGb : ℚ
  dataWrittenGb : ℚ
  deriving DecidableEq, Repr

/-- One `{"name": ..., "rpm": ...}` entry of `data["fans"]`. -/
structure FanInfo where
  name : String
  rpm : ℚ
  deriving DecidableEq, Repr

/-- The full `data` dictionary built by `fetch_data`. -/
structure SnapshotData where
  cpu : CpuData
  gpu : GpuData
  moboTemp : ℚ
  ram : RamData
  storage : List DiskInfo
  fans : List FanInfo
  deriving DecidableEq, Repr

/-- The all-zero initial `data` dictionary. -/
def snapshotInit : SnapshotData :=
  ⟨⟨0, 0, 0, 0, 0⟩, ⟨0, 0, 0, 0, 0, 0, 0⟩, 0, ⟨0, 0, 0⟩, [], []⟩

/-- The CPU branch of the sensor loop. -/
def processCpuSensor (c : CpuData) (s : Sensor) : CpuData :=
  let val := safeValue s.value
  if s.sensorType = "Temperature" then
    if 0 < val then { c with temp := max c.temp val } else c
  else if s.sensorType = "Voltage" then
    if 0 < val ∧ val < 2 then { c with voltage := max c.voltage val } else c
  else if s.sensorType = "Load" then
    if strIn "Total" s.name ∧ 0 < val then { c with load := val } else c
  else if s.sensorType = "Power" then
    if 0 < val then { c with power := max c.power val } else c
  else if s.sensorType = "Clock" then
    if 0 < val then { c with clock := max c.clock val } else c
  else c

/-- The GPU branch of the sensor loop. -/
def processGpuSensor (g : GpuData) (s : Sensor) : GpuData :=
  let val := safeValue s.value
  if s.sensorType = "Temperature" then
    if strIn "Core" s.name ∧ 0 < val then { g with temp := val } else g
  else if s.sensorType = "Load" then
    if strIn "Core" s.name ∧ ¬ strIn "D3D" s.name ∧ 0 < val then { g with load := val } else g
  else if s.sensorType = "Voltage" then
    if strIn "Core" s.name ∧ 0 < val then { g with voltage := val } else g
  else if s.sensorType = "Clock" then
    if strIn "Core" s.name ∧ 0 < val then { g with clockCore := val }
    else if strIn "Memory" s.name ∧ 0 < val then { g with clockMem := val }
    else g
  else if s.sensorType = "Fan" then
    if 0 < val then { g with fan := val } else g
  else if s.sensorType = "SmallData" then
    if strIn "Dedicated" s.name ∧ 0 < val then { g with memUsed := val } else g
  else g

/-- The motherboard (sub-hardware) branch: temperature max plus fan list. -/
def processMoboSensor (st : ℚ × List FanInfo) (s : Sensor) : ℚ × List FanInfo :=
  let val := safeValue s.value
  if s.sensorType = "Temperature" then
    if 0 < val ∧ val < 150 then (max st.1 val, st.2) else st
  else if s.sensorType = "Fan" then
    if 100 < val then (st.1, st.2 ++ [⟨s.name, val⟩]) else st
  else st

/-- The RAM branch of the sensor loop. -/
def processMemorySensor (r : RamData) (s : Sensor) : RamData :=
  let val := safeValue s.value
  if s.sensorType = "Load" then
    if strIn "Memory" s.name ∧ ¬ strIn "Virtual" s.name then { r with load := val } else r
  else if s.sensorType = "Data" then
    if strIn "Used" s.name ∧ ¬ strIn "Virtual" s.name then { r with usedGb := val }
    else if strIn "Available" s.name ∧ ¬ strIn "Virtual" s.name then { r with availableGb := val }
    else r
  else r

/-- `disk_info` as initialized per storage device (health defaults to 100). -/
def diskInit (n : String) : DiskInfo := ⟨n, 0, 100, 0, 0, 0, 0, 0, 0, 0, 0⟩

/-- The storage branch: one step of the sensor loop over
`(disk_info, has_health, has_any_data)`. -/
def storageStep (st : DiskInfo × Bool × Bool) (s : Sensor) : DiskInfo × Bool × Bool :=
  let d := st.1
  let hasHealth := st.2.1
  let hasAny := st.2.2
  let val := safeValue s.value
  if s.sensorType = "Temperature" then
    if 0 < val then ({ d with temp := max d.temp val }, hasHealth, true) else st
  else if s.sensorType = "Level" then
    if strIn "Available Spare" s.name ∧ 0 < val then ({ d with health := val }, true, true)
    else if strIn "Percentage Used" s.name ∧ hasHealth = false then
      ({ d with health := max 0 (100 - val) }, true, true)
    else st
  else if s.sensorType = "Load" then
    if strIn "Used Space" s.name then ({ d with usedSpace := val }, hasHealth, true)
    else if strIn "Read Activity" s.name then ({ d with readActivity := val }, hasHealth, hasAny)
    else if strIn "Write Activity" s.name then ({ d with writeActivity := val }, hasHealth, hasAny)
    else if strIn "Total Activity" s.name then ({ d with totalActivity := val }, hasHealth, hasAny)
    else st
  else if s.sensorType = "Throughput" then
    if strIn "Read" s.name ∧ 0 < val then ({ d with readRate := val }, hasHealth, hasAny)
    else if strIn "Write" s.name ∧ 0 < val then ({ d with writeRate := val }, hasHealth, hasAny)
    else st
  else if s.sensorType = "Data" then
    if strIn "Data Read" s.name ∧ 0 < val then ({ d with dataReadGb := val }, hasHealth, true)
    else if strIn "Data Written" s.name ∧ 0 < val then ({ d with dataWrittenGb := val }, hasHealth, true)
    else st
  else st

/-- The storage device loop: fold the sensors and keep the disk only when
`has_any_data` ended up true. -/
def processStorage (hwName : String) (sensors : List Sensor) : Option DiskInfo :=
  let st := sensors.foldl storageStep (diskInit hwName, false, false)
  if st.2.2 then some st.1 else none

/-- Dispatch one hardware item into the accumulating `data` dictionary,
following the `if/elif` chain on the hardware type. -/
def hwStep (acc : SnapshotData) (h : HardwareItem) : SnapshotData :=
  if h.hwType = "Cpu" then
    { acc with cpu := h.sensors.foldl processCpuSensor acc.cpu }
  else if strIn "Gpu" h.hwType then
    { acc with gpu := h.sensors.foldl processGpuSensor acc.gpu }
  else if h.hwType = "Motherboard" then
    let mf := h.subSensors.foldl processMoboSensor (acc.moboTemp, acc.fans)
    { acc with moboTemp := mf.1, fans := mf.2 }
  else if h.hwType = "Memory" then
    { acc with ram := h.sensors.foldl processMemorySensor acc.ram }
  else if h.hwType = "Storage" then
    match processStorage h.name h.sensors with
    | some d => { acc with storage := acc.storage ++ [d] }
    | none => acc
  else acc

/-- `HardwareMonitor.fetch_data`, given the enumerated hardware tree. -/
def fetch_data (hw : List HardwareItem) : SnapshotData :=
  hw.foldl hwStep snapshotInit

example : (fetch_data [⟨"Cpu", "cpu0",
    [⟨"Temperature", "Core Max", some 61⟩, ⟨"Temperature", "Package", some 72⟩,
     ⟨"Load", "CPU Total", some 41⟩], []⟩]).cpu =
    ⟨72, 0, 41, 0, 0⟩ := by decide
example : (fetch_data [⟨"Storage", "disk0",
    [⟨"Temperature", "Temperature", some 45⟩], []⟩]).storage =
    [⟨"disk0", 45, 100, 0, 0, 0, 0, 0, 0, 0, 0⟩] := by decide
example : (fetch_data [⟨"Storage", "disk0",
    [⟨"Throughput", "Read Rate", some 500⟩], []⟩]).storage = [] := by decide

/-! ### C7: order (in)dependence of the reduction -/

/-- C7 counterexample: two CPU `Load` sensors whose names both contain
`"Total"` make `cpu.load` depend on iteration order — the assignment
`data["cpu"]["load"] = val` lets the *last* qualifying sensor win, so the
two permuted sensor sequences reduce to different snapshots. -/
theorem fetch_data_order_dependent :
    ([⟨"Load", "Total A", some 10⟩, ⟨"Load", "Total B", some 20⟩] : List Sensor).Perm
      [⟨"Load", "Total B", some 20⟩, ⟨"Load", "Total A", some 10⟩] ∧
    (fetch_data [⟨"Cpu", "cpu0",
      [⟨"Load", "Total A", some 10⟩, ⟨"Load", "Total B", some 20⟩], []⟩]).cpu.load = 20 ∧
    (fetch_data [⟨"Cpu", "cpu0",
      [⟨"Load", "Total B", some 20⟩, ⟨"Load", "Total A", some 10⟩], []⟩]).cpu.load = 10 ∧
    fetch_data [⟨"Cpu", "cpu0",
      [⟨"Load", "Total A", some 10⟩, ⟨"Load", "Total B", some 20⟩], []⟩] ≠
    fetch_data [⟨"Cpu", "cpu0",
      [⟨"Load", "Total B", some 20⟩, ⟨"Load", "Total A", some 10⟩], []⟩] := by
  refine ⟨?_, by decide, by decide, by decide⟩
  decide

/-- Projecting a fold through a field-step equation. -/
theorem foldl_proj_eq {σ α τ : Type} (f : σ → τ) (step : σ → α → σ) (g : τ → α → τ)
    (hc : ∀ c s, f (step c s) = g (f c) s) :
    ∀ (l : List α) (c : σ), f (l.foldl step c) = l.foldl g (f c) := by
  intro l
  induction l with
  | nil => intro c; rfl
  | cons s tl ih =>
    intro c
    simp only [List.foldl_cons, ih, hc]

/-- Guarded-max accumulation (the shape of the `max`-reduced fields). -/
def gmaxStep (q : Sensor → Prop) [DecidablePred q] (t : ℚ) (s : Sensor) : ℚ :=
  if q s then max t (safeValue s.value) else t

theorem gmaxStep_rcomm (q : Sensor → Prop) [DecidablePred q] (t : ℚ) (s1 s2 : Sensor) :
    gmaxStep q (gmaxStep q t s1) s2 = gmaxStep q (gmaxStep q t s2) s1 := by
  unfold gmaxStep
  split_ifs <;> simp [max_assoc, max_comm (safeValue s1.value)]

theorem processCpuSensor_temp (c : CpuData) (s : Sensor) :
    (processCpuSensor c s).temp =
      gmaxStep (fun s => s.sensorType = "Temperature" ∧ 0 < safeValue s.value) c.temp s := by
  unfold processCpuSensor gmaxStep
  split_ifs <;> try simp_all
  all_goals split_ifs <;> simp_all
  all_goals linarith

theorem processCpuSensor_voltage (c : CpuData) (s : Sensor) :
    (processCpuSensor c s).voltage =
      gmaxStep (fun s => s.sensorType = "Voltage" ∧ 0 < safeValue s.value ∧
        safeValue s.value < 2) c.voltage s := by
  unfold processCpuSensor gmaxStep
  split_ifs <;> try simp_all
  all_goals split_ifs <;> simp_all
  all_goals linarith

theorem processCpuSensor_power (c : CpuData) (s : Sensor) :
    (processCpuSensor c s).power =
      gmaxStep (fun s => s.sensorType = "Power" ∧ 0 < safeValue s.value) c.power s := by
  unfold processCpuSensor gmaxStep
  split_ifs <;> try simp_all
  all_goals split_ifs <;> simp_all
  all_goals linarith

theorem processCpuSensor_clock (c : CpuData) (s : Sensor) :
    (processCpuSensor c s).clock =
      gmaxStep (fun s => s.sensorType = "Clock" ∧ 0 < safeValue s.value) c.clock s := by
  unfold processCpuSensor gmaxStep
  split_ifs <;> try simp_all
  all_goals split_ifs <;> simp_all
  all_goals linarith

theorem fetch_data_single_cpu (n : String) (ss subs : List Sensor) :
    (fetch_data [⟨"Cpu", n, ss, subs⟩]).cpu =
      ss.foldl processCpuSensor ⟨0, 0, 0, 0, 0⟩ := by
  simp [fetch_data, hwStep, snapshotInit]

/-- C7 amended: the `max`-reduced CPU fields (temperature, core voltage,
power, clock) are invariant under permutation of the sensor sequence; the
direct-assignment fields (such as `cpu.load`) are the only order-dependent
ones, the last qualifying sensor winning. -/
theorem fetch_data_cpu_max_fields_perm_invariant (n n' : String)
    (ss ss' subs subs' : List Sensor) (hp : ss.Perm ss') :
    (fetch_data [⟨"Cpu", n, ss, subs⟩]).cpu.temp =
      (fetch_data [⟨"Cpu", n', ss', subs'⟩]).cpu.temp ∧
    (fetch_data [⟨"Cpu", n, ss, subs⟩]).cpu.voltage =
      (fetch_data [⟨"Cpu", n', ss', subs'⟩]).cpu.voltage ∧
    (fetch_data [⟨"Cpu", n, ss, subs⟩]).cpu.power =
      (fetch_data [⟨"Cpu", n', ss', subs'⟩]).cpu.power ∧
    (fetch_data [⟨"Cpu", n, ss, subs⟩]).cpu.clock =
      (fetch_data [⟨"Cpu", n', ss', subs'⟩]).cpu.clock := by
  rw [fetch_data_single_cpu, fetch_data_single_cpu]
  refine ⟨?_, ?_, ?_, ?_⟩
  · rw [foldl_proj_eq CpuData.temp processCpuSensor _ processCpuSensor_temp,
      foldl_proj_eq CpuData.temp processCpuSensor _ processCpuSensor_temp]
    haveI : RightCommutative (gmaxStep fun s => s.sensorType = "Temperature" ∧ 0 < safeValue s.value) :=
      ⟨fun t s1 s2 => gmaxStep_rcomm _ t s1 s2⟩
    exact hp.foldl_eq _
  · rw [foldl_proj_eq CpuData.voltage processCpuSensor _ processCpuSensor_voltage,
      foldl_proj_eq CpuData.voltage processCpuSensor _ processCpuSensor_voltage]
    haveI : RightCommutative (gmaxStep fun s => s.sensorType = "Voltage" ∧ 0 < safeValue s.value ∧
        safeValue s.value < 2) :=
      ⟨fun t s1 s2 => gmaxStep_rcomm _ t s1 s2⟩
    exact hp.foldl_eq _
  · rw [foldl_proj_eq CpuData.power processCpuSensor _ processCpuSensor_power,
      foldl_proj_eq CpuData.power processCpuSensor _ processCpuSensor_power]
    haveI : RightCommutative (gmaxStep fun s => s.sensorType = "Power" ∧ 0 < safeValue s.value) :=
      ⟨fun t s1 s2 => gmaxStep_rcomm _ t s1 s2⟩
    exact hp.foldl_eq _
  · rw [foldl_proj_eq CpuData.clock processCpuSensor _ processCpuSensor_clock,
      foldl_proj_eq CpuData.clock processCpuSensor _ processCpuSensor_clock]
    haveI : RightCommutative (gmaxStep fun s => s.sensorType = "Clock" ∧ 0 < safeValue s.value) :=
      ⟨fun t s1 s2 => gmaxStep_rcomm _ t s1 s2⟩
    exact hp.foldl_eq _

/-- Witness for the amended C7: two temperature sensors in either order
yield the same `cpu.temp`. -/
theorem fetch_data_cpu_max_fields_perm_invariant_witness :
    ([⟨"Temperature", "Package", some 72⟩, ⟨"Temperature", "Core Max", some 61⟩] :
      List Sensor).Perm
      [⟨"Temperature", "Core Max", some 61⟩, ⟨"Temperature", "Package", some 72⟩] ∧
    (fetch_data [⟨"Cpu", "cpu0",
      [⟨"Temperature", "Package", some 72⟩, ⟨"Temperature", "Core Max", some 61⟩], []⟩]).cpu.temp =
    (fetch_data [⟨"Cpu", "cpu0",
      [⟨"Temperature", "Core Max", some 61⟩, ⟨"Temperature", "Package", some 72⟩], []⟩]).cpu.temp :=
  ⟨by decide,
    (fetch_data_cpu_max_fields_perm_invariant "cpu0" "cpu0" _ _ [] [] (by decide)).1⟩

/-! ### C8: the storage inclusion guard -/

/-- The sensors that actually set `has_any_data` in the storage loop:
a positive temperature; a Level sensor (an "Available Spare" with positive
value, or any "Percentage Used"); a "Used Space" Load sensor (any value,
zero included); a positive "Data Read"/"Data Written" Data sensor.
`Throughput` sensors and the activity `Load` sensors never qualify. -/
def qualifies (s : Sensor) : Bool :=
  decide ((s.sensorType = "Temperature" ∧ 0 < safeValue s.value) ∨
    (s.sensorType = "Level" ∧
      ((strIn "Available Spare" s.name = true ∧ 0 < safeValue s.value) ∨
        strIn "Percentage Used" s.name = true)) ∨
    (s.sensorType = "Load" ∧ strIn "Used Space" s.name = true) ∨
    (s.sensorType = "Data" ∧
      (strIn "Data Read" s.name = true ∨ strIn "Data Written" s.name = true) ∧
      0 < safeValue s.value))

/-- One storage step: the `has_any_data` flag grows exactly by `qualifies`,
and `has_health` only ever becomes true together with `has_any_data`. -/
theorem storageStep_anyData (d : DiskInfo) (hh ha : Bool)
    (hinv : hh = true → ha = true) (s : Sensor) :
    (storageStep (d, hh, ha) s).2.2 = (ha || qualifies s) ∧
    ((storageStep (d, hh, ha) s).2.1 = true → (storageStep (d, hh, ha) s).2.2 = true) := by
  unfold storageStep qualifies
  split_ifs <;> try simp_all
  all_goals split_ifs <;> simp_all
  · rintro (⟨has, hv⟩ | hpu)
    · have := ‹strIn "Available Spare" s.name = true → safeValue s.value ≤ 0› has
      linarith
    · exact hinv (‹strIn "Percentage Used" s.name = true → hh = true› hpu)
  · rintro (hdr | hdw) hv
    · have := ‹strIn "Data Read" s.name = true → safeValue s.value ≤ 0› hdr
      linarith
    · have := ‹strIn "Data Written" s.name = true → safeValue s.value ≤ 0› hdw
      linarith

/-- Folding the storage loop: the final `has_any_data` is the initial flag
or-ed with "some sensor qualifies". -/
theorem storage_fold_any : ∀ (ss : List Sensor) (d : DiskInfo) (hh ha : Bool),
    (hh = true → ha = true) →
    (ss.foldl storageStep (d, hh, ha)).2.2 = (ha || ss.any qualifies) := by
  intro ss
  induction ss with
  | nil => intro d hh ha _; simp
  | cons s tl ih =>
    intro d hh ha hinv
    obtain ⟨hstep, hstepinv⟩ := storageStep_anyData d hh ha hinv s
    rcases hstep_eq : storageStep (d, hh, ha) s with ⟨d', hh', ha'⟩
    rw [hstep_eq] at hstep hstepinv
    simp only [] at hstep hstepinv
    rw [List.foldl_cons, hstep_eq, ih d' hh' ha' hstepinv, hstep, List.any_cons,
      Bool.or_assoc]

/-- C8 counterexample: a Storage device whose only sensor is a positive
`Throughput` reading is *excluded* from the `storage` list — the Throughput
branch of the loop never sets `has_any_data`, contradicting the claim that
any throughput/data sensor > 0 qualifies a device. -/
theorem storage_throughput_excluded :
    (0 : ℚ) < safeValue (some 500) ∧
    (fetch_data [⟨"Storage", "disk0",
      [⟨"Throughput", "Read Rate", some 500⟩], []⟩]).storage = [] := by
  decide

theorem fetch_data_single_storage (n : String) (ss subs : List Sensor) :
    (fetch_data [⟨"Storage", n, ss, subs⟩]).storage =
      match processStorage n ss with
      | some d => [d]
      | none => [] := by
  show (hwStep snapshotInit ⟨"Storage", n, ss, subs⟩).storage = _
  rw [hwStep]
  simp only [show (("Storage" : String) = "Cpu") = False from by simp,
    show strIn "Gpu" "Storage" = false from by decide,
    show (("Storage" : String) = "Motherboard") = False from by simp,
    show (("Storage" : String) = "Memory") = False from by simp,
    Bool.false_eq_true, if_false, ite_false, ite_true]
  cases hps : processStorage n ss <;> simp [snapshotInit]

/-- C8 amended: a Storage device appears in the `storage` list iff some
sensor qualifies per `qualifies` (positive temperature; "Available Spare"
Level > 0 or any "Percentage Used" Level; "Used Space" Load of any value;
"Data Read"/"Data Written" Data > 0 — Throughput sensors never qualify);
and a device whose only sensor is a 45-degree temperature reading, with no
health sensor, appears with the default `health = 100`. -/
theorem storage_inclusion_guard (n : String) (ss subs : List Sensor) :
    ((fetch_data [⟨"Storage", n, ss, subs⟩]).storage ≠ [] ↔ ss.any qualifies = true) ∧
    (fetch_data [⟨"Storage", "d", [⟨"Temperature", "Temperature", some 45⟩], []⟩]).storage =
      [⟨"d", 45, 100, 0, 0, 0, 0, 0, 0, 0, 0⟩] := by
  refine ⟨?_, by decide⟩
  rw [fetch_data_single_storage]
  have hany := storage_fold_any ss (diskInit n) false false (by simp)
  rw [processStorage]
  simp only [] at hany
  rw [hany]
  simp only [Bool.false_or]
  cases h : ss.any qualifies with
  | true => simp [h]
  | false => simp [h]

/-! ## The history recorder (`src/core/history.py`, `get_stats`)

The SQLite table is modelled as the list of its rows; `datetime('now',
'-{hours} hours')` is `now - hours * 3600` on wall-clock seconds, and the
`WHERE timestamp > ...` filter keeps strictly newer rows.  The SQL
aggregates `MIN`/`MAX`/`AVG` are `NULL` on an empty selection, and
`row[...] or 0` maps that `NULL` (and only changes `NULL`/zero to `0`,
numerically the identity). -/

/-- One row of the `metrics` table. -/
structure HistoryRow where
  timestamp : ℚ
  cpuUsage : ℚ
  cpuTemp : ℚ
  gpuLoad : ℚ
  gpuTemp : ℚ
  ramPercent : ℚ
  pingMs : ℚ
  netDownKbps : ℚ
  netUpKbps : ℚ
  deriving DecidableEq, Repr

/-- The `valid_metrics` whitelist of `get_stats`. -/
def validMetrics : List String :=
  ["cpu_usage", "cpu_temp", "gpu_load", "gpu_temp",
   "ram_percent", "ping_ms", "net_down_kbps", "net_up_kbps"]

/-- Column selection for a (whitelisted) metric name. -/
def metricColumn (metric : String) (r : HistoryRow) : ℚ :=
  if metric = "cpu_usage" then r.cpuUsage
  else if metric = "cpu_temp" then r.cpuTemp
  else if metric = "gpu_load" then r.gpuLoad
  else if metric = "gpu_temp" then r.gpuTemp
  else if metric = "ram_percent" then r.ramPercent
  else if metric = "ping_ms" then r.pingMs
  else if metric = "net_down_kbps" then r.netDownKbps
  else r.netUpKbps

/-- `MIN(col) ... or 0`: the minimum of the selection, 0 when it is empty. -/
def minOr0 : List ℚ → ℚ
  | [] => 0
  | v :: vs => vs.foldl min v

/-- `MAX(col) ... or 0`. -/
def maxOr0 : List ℚ → ℚ
  | [] => 0
  | v :: vs => vs.foldl max v

/-- `AVG(col) ... or 0`. -/
def avgOr0 (vs : List ℚ) : ℚ :=
  if vs = [] then 0 else vs.sum / vs.length

/-- `TelemetryHistory.get_stats(metric, hours)` over the table rows at
wall-clock `now`, returning the result dictionary as key-value pairs:
an unknown metric name returns the *empty* dictionary `{}`; otherwise the
aggregates over the rows of the last `hours` hours. -/
def get_stats (rows : List HistoryRow) (now : ℚ) (metric : String) (hours : Int) :
    List (String × ℚ) :=
  if metric ∈ validMetrics then
    let window := rows.filter fun r => now - (hours : ℚ) * 3600 < r.timestamp
    let vals := window.map (metricColumn metric)
    [("min", minOr0 vals), ("max", maxOr0 vals), ("avg", avgOr0 vals),
     ("count", (vals.length : ℚ))]
  else []

/-- The all-zero stats dictionary `{"min": 0, "max": 0, "avg": 0, "count": 0}`. -/
def zeroStatsDict : List (String × ℚ) :=
  [("min", 0), ("max", 0), ("avg", 0), ("count", 0)]

/-- C9 counterexample: for a metric name outside the whitelist `get_stats`
returns the empty dictionary `{}` (the early `return {}`), not the all-zero
struct the claim asserts. -/
theorem get_stats_invalid_metric_empty :
    get_stats [] 0 "bogus" 1 = [] ∧ get_stats [] 0 "bogus" 1 ≠ zeroStatsDict := by
  decide

/-- C9 amended: with a whitelisted metric and no rows in the window,
`get_stats` returns the all-zero struct; with a metric name outside the
whitelist it returns the empty dictionary `{}`. -/
theorem get_stats_empty_window_or_invalid (rows : List HistoryRow) (now : ℚ)
    (metric : String) (hours : Int) :
    (metric ∈ validMetrics →
      rows.filter (fun r => now - (hours : ℚ) * 3600 < r.timestamp) = [] →
      get_stats rows now metric hours = zeroStatsDict) ∧
    (metric ∉ validMetrics → get_stats rows now metric hours = []) := by
  constructor
  · intro hmem hwin
    rw [get_stats, if_pos hmem]
    simp only [hwin]
    rfl
  · intro hmem
    rw [get_stats, if_neg hmem]

/-- Witness for the amended C9: an empty table with a valid and an invalid
metric name. -/
theorem get_stats_empty_window_or_invalid_witness :
    get_stats [] 5 "cpu_temp" 1 = zeroStatsDict ∧ get_stats [] 5 "zzz" 1 = [] :=
  ⟨(get_stats_empty_window_or_invalid [] 5 "cpu_temp" 1).1 (by decide) rfl,
    (get_stats_empty_window_or_invalid [] 5 "zzz" 1).2 (by decide)⟩
